import Mathlib

/-!
Verification of the BudgeTRAX backend budget service (`BudgetService`).

This file gives a shallow embedding of the category-resolution and
dashboard-aggregation logic of `src/services/budgetService.ts` together with
the store-backed operations (`createMonthlyGoal`, `updateTransaction`,
`deleteCategory`).  The relational store is modelled as explicit lists of
rows threaded through each operation; JavaScript numbers are modelled as
exact rationals (`ℚ`); a string-keyed `Record` accumulator is modelled as an
association list in insertion order, and its `Object.entries` enumeration
follows ECMA-262 `OrdinaryOwnPropertyKeys`: array-index-shaped keys
(canonical numeric strings below `2^32 - 1`) first in ascending numeric
order, then the remaining string keys in insertion order;
`Array.prototype.sort` (stable since ES2019) with comparator
`(a, b) => b.amount - a.amount` is modelled as a stable insertion sort,
descending by amount.  The uniqueness
constraints that make a category insert fail come from
`database/schema.sql` (`PRIMARY KEY (id)`, `UNIQUE(name, user_id)`).
Timestamp columns (`created_at`, `updated_at`) carry no claim-relevant
information and are omitted from the row models.
-/

namespace BudgeTRAX

/-- Row of the `categories` table.  `user_id` is `none` for system defaults. -/
structure Category where
  id : String
  user_id : Option String
  name : String
  color : String
  icon : String
  is_default : Bool
deriving DecidableEq

/-- One entry of a monthly goal's expense breakdown (`CategoryExpense`). -/
structure CategoryExpense where
  category_id : String
  category_name : String
  expected_amount : ℚ
deriving DecidableEq

/-- Row of the `monthly_goals` table (claim-relevant columns). -/
structure MonthlyGoalRow where
  user_id : String
  month : String
  income : ℚ
  expenses : List CategoryExpense
deriving DecidableEq

/-- Row of the `transactions` table (claim-relevant columns). -/
structure Transaction where
  id : String
  user_id : String
  category_id : String
  category_name : String
  amount : ℚ
  description : String
  date : String
  month : String
deriving DecidableEq

/-- Payload of `CreateMonthlyGoalRequest`. -/
structure CreateMonthlyGoalRequest where
  month : String
  income : ℚ
  expenses : List CategoryExpense
deriving DecidableEq

/-- Payload of `Partial<CreateTransactionRequest>` as `updateTransaction`
reads it: every field optional, `none` modelling an absent (undefined) field. -/
structure UpdateTransactionRequest where
  category_id : Option String := none
  category_name : Option String := none
  amount : Option ℚ := none
  description : Option String := none
  date : Option String := none
deriving DecidableEq

/-- Entry of the dashboard's `topCategories` array. -/
structure TopCategory where
  category_name : String
  amount : ℚ
  percentage : ℚ
deriving DecidableEq

/-- Return value of `getDashboardSummary`. -/
structure DashboardSummary where
  monthlyGoal : Option MonthlyGoalRow
  transactions : List Transaction
  totalIncome : ℚ
  totalExpenses : ℚ
  actualSavings : ℚ
  expectedSavings : ℚ
  topCategories : List TopCategory
  monthlyProgress : ℚ
deriving DecidableEq

/-! ### UUID shape test

Embedding of `BudgetService.isUuid`, i.e. the regex
`/^[0-9a-f]{8}-[0-9a-f]{4}-[1-5][0-9a-f]{3}-[89ab][0-9a-f]{3}-[0-9a-f]{12}$/i`.
-/

/-- Character class `[0-9a-f]` under the `/i` flag. -/
def isHexDigit (c : Char) : Bool :=
  c.isDigit || (decide ('a' ≤ c) && decide (c ≤ 'f')) || (decide ('A' ≤ c) && decide (c ≤ 'F'))

/-- Admissible character at position `i` of a 36-character UUID literal. -/
def uuidCharOk (i : Nat) (c : Char) : Bool :=
  if i == 8 || i == 13 || i == 18 || i == 23 then c == '-'
  else if i == 14 then decide ('1' ≤ c) && decide (c ≤ '5')
  else if i == 19 then
    c == '8' || c == '9' || c == 'a' || c == 'b' || c == 'A' || c == 'B'
  else isHexDigit c

/-- Embedding of `BudgetService.isUuid` on a present string. -/
def isUuid (s : String) : Bool :=
  s.length == 36 && s.data.enum.all (fun p => uuidCharOk p.1 p.2)

/-- Embedding of `isUuid(value)` where `value` may be absent: the guard
`if (!value) return false` maps `undefined` and `""` to `false`. -/
def isUuidOpt : Option String → Bool
  | none => false
  | some s => isUuid s

/-! ### JavaScript string truthiness and slug title-casing -/

/-- Truthiness of a possibly-absent string: `undefined` and `""` are falsy. -/
def strTruthy : Option String → Bool
  | none => false
  | some s => !(s == "")

/-- JavaScript `String.prototype.trim`: strip leading and trailing
whitespace (written over the character list so that it is structurally
recursive and kernel-evaluable). -/
def jsTrim (s : String) : String :=
  ⟨((s.data.dropWhile Char.isWhitespace).reverse.dropWhile Char.isWhitespace).reverse⟩

/-- The condition `!derivedName || derivedName.trim().length === 0`:
the name is absent, empty, or whitespace-only. -/
def notUsable : Option String → Bool
  | none => true
  | some s => jsTrim s == ""

/-- Word character, the `\w` class of the title-casing regex. -/
def isWordChar (c : Char) : Bool := c.isAlphanum || c == '_'

/-- Walk the characters, uppercasing each word character that is not preceded
by a word character — the action of `replace(/\b\w/g, c => c.toUpperCase())`. -/
def titleCaseGo : Bool → List Char → List Char
  | _, [] => []
  | prevWord, c :: cs =>
      (if isWordChar c && !prevWord then c.toUpper else c) :: titleCaseGo (isWordChar c) cs

/-- Title-case a string at word boundaries. -/
def titleCase (s : String) : String := ⟨titleCaseGo false s.data⟩

/-- The slug-derivation step replacing every hyphen by a space. -/
def slugToSpaces (s : String) : String :=
  ⟨s.data.map (fun c => if c == '-' then ' ' else c)⟩

/-! ### Category store operations -/

/-- A row is visible to `userId` when it is owned by that user or is a system
default — the PostgREST filter `.or('user_id.eq.<uid>,is_default.eq.true')`. -/
def visibleTo (userId : String) (c : Category) : Bool :=
  c.is_default || decide (c.user_id = some userId)

/-- Insert into `categories` violates a uniqueness constraint of
`database/schema.sql`: the `id` primary key, or `UNIQUE(name, user_id)`
(SQL `NULL`s compare distinct, so default rows with `user_id = NULL` never
conflict on the name). -/
def categoryConflict (store : List Category) (row : Category) : Bool :=
  store.any (fun c =>
    decide (c.id = row.id) ||
    (decide (c.name = row.name) && c.user_id.isSome && decide (c.user_id = row.user_id)))

/-- Supabase `insert(...).select('id,name').single()` on `categories`:
on a constraint violation the store is unchanged and an error is reported
(`none`); otherwise the row is appended and returned. -/
def insertCategory (store : List Category) (row : Category) :
    Option Category × List Category :=
  if categoryConflict store row then (none, store) else (some row, store ++ [row])

/-- The UUID fast path: when the reference is a well-formed identifier,
the `maybeSingle()` lookup of the row with that `id` among the categories
visible to `userId` — `some` exactly when the filter yields a single row. -/
def uuidLookup (store : List Category) (userId : String)
    (categoryId : Option String) : Option Category :=
  match categoryId with
  | some cid =>
      if isUuid cid then
        match store.filter (fun c => decide (c.id = cid) && visibleTo userId c) with
        | [c] => some c
        | _ => none
      else none
  | none => none

/-- The exact-name lookup: when `categoryName` is present and not
whitespace-only, the `limit(1).maybeSingle()` search for the first visible
row with that exact name. -/
def nameLookup (store : List Category) (userId : String)
    (categoryName : Option String) : Option Category :=
  match categoryName with
  | some nm =>
      if jsTrim nm == "" then none
      else store.find? (fun c => decide (c.name = nm) && visibleTo userId c)
  | none => none

/-- The creation step guarded by `if (derivedName)` (JS truthiness): with a
present, non-empty derived name, insert a user-owned category row carrying
the neutral default color and icon. -/
def createWithName (store : List Category) (userId freshId : String)
    (derivedName : Option String) : Option (String × String) × List Category :=
  match derivedName with
  | some nm =>
      if nm == "" then (none, store)
      else
        match insertCategory store
            ⟨freshId, some userId, nm, "#6B7280", "more-horizontal", false⟩ with
        | (some created, store2) => (some (created.id, created.name), store2)
        | (none, store2) => (none, store2)
  | none => (none, store)

/-- The derived name of the creation step: `categoryName` when usable,
otherwise the title-cased, de-hyphenated slug when `categoryRef` is a
present, non-UUID token. -/
def derivedNameOf (categoryId categoryName : Option String) : Option String :=
  if notUsable categoryName && strTruthy categoryId && !(isUuidOpt categoryId) then
    some (titleCase (slugToSpaces (categoryId.getD "")))
  else categoryName

/-- The part of `resolveCategoryId` past the UUID fast path: exact-name
lookup among visible categories, then (when allowed) creation under the
derived name. -/
def resolveFallback (store : List Category) (userId : String)
    (categoryId : Option String) (categoryName : Option String)
    (createIfMissing : Bool) (freshId : String) :
    Option (String × String) × List Category :=
  match nameLookup store userId categoryName with
  | some c => (some (c.id, c.name), store)
  | none =>
      if createIfMissing then
        createWithName store userId freshId (derivedNameOf categoryId categoryName)
      else (none, store)

/-- Embedding of `BudgetService.resolveCategoryId`.  The store is passed and
returned explicitly; `freshId` stands for the `id` the store would generate
for a newly inserted category row. -/
def resolveCategoryId (store : List Category) (userId : String)
    (categoryId : Option String) (categoryName : Option String)
    (createIfMissing : Bool) (freshId : String) :
    Option (String × String) × List Category :=
  match uuidLookup store userId categoryId with
  | some c => (some (c.id, c.name), store)
  | none => resolveFallback store userId categoryId categoryName createIfMissing freshId

/-- Embedding of `BudgetService.deleteCategory`: delete the rows matching
`id`, `user_id` and `is_default = false`; the call reports success (`true`)
regardless of how many rows matched. -/
def deleteCategory (store : List Category) (userId categoryId : String) :
    Bool × List Category :=
  (true,
   store.filter (fun c =>
     !(decide (c.id = categoryId) && decide (c.user_id = some userId) &&
       decide (c.is_default = false))))

/-! ### Goal upsert -/

/-- A goal row matches the upsert conflict target `(user_id, month)`. -/
def goalKey (userId month : String) (r : MonthlyGoalRow) : Bool :=
  decide (r.user_id = userId) && decide (r.month = month)

/-- Embedding of `BudgetService.createMonthlyGoal`: an upsert on the
`monthly_goals` table with conflict target `(user_id, month)` — a conflicting
row has its `income` and `expenses` columns overwritten, otherwise a new row
is appended.  Returns the upserted row together with the new store. -/
def createMonthlyGoal (store : List MonthlyGoalRow) (userId : String)
    (goalData : CreateMonthlyGoalRequest) : MonthlyGoalRow × List MonthlyGoalRow :=
  let row : MonthlyGoalRow := ⟨userId, goalData.month, goalData.income, goalData.expenses⟩
  if store.any (goalKey userId goalData.month) then
    (row, store.map (fun r =>
      if goalKey userId goalData.month r then
        { r with income := goalData.income, expenses := goalData.expenses }
      else r))
  else (row, store ++ [row])

/-! ### Transaction update -/

/-- The `YYYY-MM` month key of an ISO `YYYY-MM-DD` date string — models
`new Date(date).toISOString().slice(0, 7)` on well-formed date inputs. -/
def monthFromDate (d : String) : String := ⟨d.data.take 7⟩

/-- Embedding of `BudgetService.updateTransaction`.  The category and
transaction stores are threaded explicitly; `freshId` is the id the store
would generate should category resolution create a category.  The first
component is the updated row (`none` models a thrown error). -/
def updateTransaction (catStore : List Category) (txStore : List Transaction)
    (userId transactionId : String) (updates : UpdateTransactionRequest)
    (freshId : String) : Option Transaction × List Category × List Transaction :=
  match txStore.filter (fun t => decide (t.id = transactionId) && decide (t.user_id = userId)) with
  | [existing] =>
      let newDate := updates.date.getD existing.date
      let month := match updates.date with
        | some d => monthFromDate d
        | none => existing.month
      let resolved : Option (String × String) × List Category :=
        if strTruthy updates.category_id || strTruthy updates.category_name then
          resolveCategoryId catStore userId updates.category_id updates.category_name true freshId
        else (some (existing.category_id, existing.category_name), catStore)
      match resolved with
      | (none, catStore2) => (none, catStore2, txStore)
      | (some r, catStore2) =>
          let upd : Transaction → Transaction := fun t =>
            if decide (t.id = transactionId) && decide (t.user_id = userId) then
              { t with category_id := r.1, category_name := r.2,
                       amount := updates.amount.getD existing.amount,
                       description := updates.description.getD existing.description,
                       date := newDate, month := month }
            else t
          (some (upd existing), catStore2, txStore.map upd)
  | _ => (none, catStore, txStore)

/-! ### Dashboard aggregation

Embedding of the pure computation of `BudgetService.getDashboardSummary`
from an already-fetched goal and transaction list.
-/

/-- The fold `transactions.reduce((sum, trans) => sum + Number(trans.amount), 0)`. -/
def totalExpensesOf (ts : List Transaction) : ℚ :=
  ts.foldl (fun sum t => sum + t.amount) 0

/-- The fold `monthlyGoal?.expenses?.reduce((s, e) => s + Number(e.expected_amount), 0) || 0`. -/
def totalExpectedExpensesOf : Option MonthlyGoalRow → ℚ
  | none => 0
  | some g => g.expenses.foldl (fun s e => s + e.expected_amount) 0

/-- One step of the `Record<string, number>` accumulation
`acc[name] = (acc[name] || 0) + amount`: update the entry of `name` in
place, or append a new entry (string keys keep insertion order). -/
def recordAdd : List (String × ℚ) → String → ℚ → List (String × ℚ)
  | [], n, a => [(n, a)]
  | p :: rest, n, a =>
      if p.1 = n then (p.1, p.2 + a) :: rest else p :: recordAdd rest n a

/-- The `categoryTotals` accumulator of `getDashboardSummary`. -/
def categoryTotals (ts : List Transaction) : List (String × ℚ) :=
  ts.foldl (fun acc t => recordAdd acc t.category_name t.amount) []

/-- Numeric value of a digit string (fold over the decimal digits). -/
def strToNat (s : String) : Nat :=
  s.data.foldl (fun acc c => acc * 10 + (c.toNat - '0'.toNat)) 0

/-- ECMA-262 array-index string: the canonical decimal representation of
some `n` with `0 ≤ n < 2^32 - 1` — nonempty, all digits, no leading zero
unless the string is exactly `"0"`. -/
def isArrayIndex (s : String) : Bool :=
  !s.data.isEmpty && s.data.all Char.isDigit
    && (!(s.data.head? == some '0') || s == "0")
    && decide (strToNat s < 4294967295)

/-- Insertion into a list sorted ascending by the numeric value of the key. -/
def keyIdxInsert (p : String × ℚ) : List (String × ℚ) → List (String × ℚ)
  | [] => [p]
  | q :: qs =>
      if strToNat p.1 ≤ strToNat q.1 then p :: q :: qs else q :: keyIdxInsert p qs

/-- Sort entries ascending by the numeric value of their (array-index) keys. -/
def sortByKeyIdx : List (String × ℚ) → List (String × ℚ)
  | [] => []
  | p :: ps => keyIdxInsert p (sortByKeyIdx ps)

/-- ECMA-262 `Object.entries` enumeration order
(`OrdinaryOwnPropertyKeys`): the array-index keys first, in ascending
numeric order, then the remaining string keys in insertion order. -/
def objectEntries (l : List (String × ℚ)) : List (String × ℚ) :=
  sortByKeyIdx (l.filter (fun p => isArrayIndex p.1))
    ++ l.filter (fun p => !isArrayIndex p.1)

/-- One mapped entry of `topCategories`, carrying the percentage
`totalExpenses > 0 ? (amount / totalExpenses) * 100 : 0`. -/
def mkTopEntry (totalExpenses : ℚ) (p : String × ℚ) : TopCategory :=
  ⟨p.1, p.2, if 0 < totalExpenses then p.2 / totalExpenses * 100 else 0⟩

/-- Stable insertion of an entry into a list sorted descending by amount:
the inserted element goes before the first element it does not lose to,
matching a stable sort with comparator `(a, b) => b.amount - a.amount`. -/
def insertByAmount (x : TopCategory) : List TopCategory → List TopCategory
  | [] => [x]
  | y :: ys => if y.amount ≤ x.amount then x :: y :: ys else y :: insertByAmount x ys

/-- Stable sort, descending by amount — the model of
`Array.prototype.sort((a, b) => b.amount - a.amount)` (stable per ES2019). -/
def sortByAmountDesc : List TopCategory → List TopCategory
  | [] => []
  | x :: xs => insertByAmount x (sortByAmountDesc xs)

/-- The `topCategories` computation: enumerate the grouped totals in
`Object.entries` order, map them to entries, sort descending by amount,
keep the first 5. -/
def topCategoriesOf (ts : List Transaction) : List TopCategory :=
  (sortByAmountDesc
    ((objectEntries (categoryTotals ts)).map (mkTopEntry (totalExpensesOf ts)))).take 5

/-- Embedding of the aggregation part of `BudgetService.getDashboardSummary`
(lines computing the returned object from the fetched goal and transactions). -/
def getDashboardSummary (monthlyGoal : Option MonthlyGoalRow)
    (transactions : List Transaction) : DashboardSummary :=
  let totalIncome : ℚ := match monthlyGoal with
    | some g => g.income
    | none => 0
  let totalExpenses := totalExpensesOf transactions
  let totalExpectedExpenses := totalExpectedExpensesOf monthlyGoal
  { monthlyGoal := monthlyGoal
    transactions := transactions
    totalIncome := totalIncome
    totalExpenses := totalExpenses
    actualSavings := totalIncome - totalExpenses
    expectedSavings := totalIncome - totalExpectedExpenses
    topCategories := topCategoriesOf transactions
    monthlyProgress :=
      if 0 < totalExpectedExpenses then
        min (totalExpenses / totalExpectedExpenses * 100) 100
      else 0 }

/-! ### Spec-side reference definitions

These follow the specification's wording and are compared with the
code-derived definitions above.
-/

/-- Reference (spec-side) total of expenses: the sum of the transaction amounts. -/
def specTotalExpenses (ts : List Transaction) : ℚ := (ts.map Transaction.amount).sum

/-- Reference (spec-side) total of expected expenses: the sum of
`expected_amount` over the goal's expenses, `0` absent a goal. -/
def specTotalExpectedExpenses : Option MonthlyGoalRow → ℚ
  | none => 0
  | some gl => (gl.expenses.map CategoryExpense.expected_amount).sum

/-- The distinct members of a list, each at its first occurrence, in order. -/
def firstOccurs : List String → List String
  | [] => []
  | n :: ns => n :: (firstOccurs ns).filter (fun m => decide (m ≠ n))

/-- Index of the first occurrence of `n` (the length of the list when absent). -/
def firstIdx (n : String) : List String → Nat
  | [] => 0
  | m :: ms => if m = n then 0 else firstIdx n ms + 1

/-- Number of goal rows carrying the key `(userId, month)`. -/
def goalKeyCount (store : List MonthlyGoalRow) (userId month : String) : Nat :=
  store.countP (goalKey userId month)

/-! ### Fold lemmas for the scalar totals -/

theorem foldl_add_amount (ts : List Transaction) (a : ℚ) :
    ts.foldl (fun sum t => sum + t.amount) a = a + (ts.map Transaction.amount).sum := by
  induction ts generalizing a with
  | nil => simp
  | cons t ts ih => simp [ih, add_assoc]

theorem totalExpensesOf_eq (ts : List Transaction) :
    totalExpensesOf ts = specTotalExpenses ts := by
  simpa [totalExpensesOf, specTotalExpenses] using foldl_add_amount ts 0

theorem foldl_add_expected (es : List CategoryExpense) (a : ℚ) :
    es.foldl (fun s e => s + e.expected_amount) a
      = a + (es.map CategoryExpense.expected_amount).sum := by
  induction es generalizing a with
  | nil => simp
  | cons e es ih => simp [ih, add_assoc]

theorem totalExpectedExpensesOf_eq (g : Option MonthlyGoalRow) :
    totalExpectedExpensesOf g = specTotalExpectedExpenses g := by
  cases g with
  | none => rfl
  | some gl =>
      simpa [totalExpectedExpensesOf, specTotalExpectedExpenses] using
        foldl_add_expected gl.expenses 0

/-! ### Claims C8 and C2: dashboard scalar totals and monthly progress -/

/-- C8: the dashboard's scalar totals match their reference definitions:
`totalIncome` is the goal's income (0 absent a goal), `totalExpenses` the sum
of the transaction amounts, `actualSavings = totalIncome - totalExpenses`,
and `expectedSavings = totalIncome - totalExpectedExpenses` where
`totalExpectedExpenses` sums `expected_amount` over the goal's expenses
(0 absent a goal). -/
theorem claim_C8_scalar_totals (g : Option MonthlyGoalRow) (ts : List Transaction) :
    (∀ gl, g = some gl → (getDashboardSummary g ts).totalIncome = gl.income) ∧
    (g = none → (getDashboardSummary g ts).totalIncome = 0) ∧
    (getDashboardSummary g ts).totalExpenses = specTotalExpenses ts ∧
    (getDashboardSummary g ts).actualSavings =
      (getDashboardSummary g ts).totalIncome - (getDashboardSummary g ts).totalExpenses ∧
    (getDashboardSummary g ts).expectedSavings =
      (getDashboardSummary g ts).totalIncome - specTotalExpectedExpenses g := by
  refine ⟨?_, ?_, ?_, ?_, ?_⟩
  · rintro gl rfl; rfl
  · rintro rfl; rfl
  · simpa [getDashboardSummary] using totalExpensesOf_eq ts
  · rfl
  · simp [getDashboardSummary, totalExpectedExpensesOf_eq]

/-- Witness for C8 at a concrete goal and transaction list. -/
theorem claim_C8_scalar_totals_witness :
    some (⟨"u", "2024-05", 1000, [⟨"c", "Food", 100⟩]⟩ : MonthlyGoalRow)
        = some (⟨"u", "2024-05", 1000, [⟨"c", "Food", 100⟩]⟩ : MonthlyGoalRow) ∧
    (getDashboardSummary (some ⟨"u", "2024-05", 1000, [⟨"c", "Food", 100⟩]⟩)
        [⟨"t", "u", "c", "Food", 250, "d", "2024-05-01", "2024-05"⟩]).totalIncome = 1000 :=
  ⟨rfl,
   (claim_C8_scalar_totals (some ⟨"u", "2024-05", 1000, [⟨"c", "Food", 100⟩]⟩)
      [⟨"t", "u", "c", "Food", 250, "d", "2024-05-01", "2024-05"⟩]).1
     ⟨"u", "2024-05", 1000, [⟨"c", "Food", 100⟩]⟩ rfl⟩

/-- C2: `monthlyProgress` is `min(totalExpenses / totalExpectedExpenses * 100, 100)`
when the expected total is positive and `0` when it is zero, hence never
exceeds `100`; in particular with expected total 100 and actual total 250 the
progress is 100. -/
theorem claim_C2_monthly_progress (g : Option MonthlyGoalRow) (ts : List Transaction) :
    (0 < specTotalExpectedExpenses g →
      (getDashboardSummary g ts).monthlyProgress =
        min ((getDashboardSummary g ts).totalExpenses / specTotalExpectedExpenses g * 100) 100) ∧
    (specTotalExpectedExpenses g = 0 → (getDashboardSummary g ts).monthlyProgress = 0) ∧
    (getDashboardSummary g ts).monthlyProgress ≤ 100 ∧
    (getDashboardSummary (some ⟨"u", "2024-05", 0, [⟨"c", "Food", 100⟩]⟩)
        [⟨"t", "u", "c", "Food", 250, "d", "2024-05-01", "2024-05"⟩]).monthlyProgress = 100 := by
  have hrw : totalExpectedExpensesOf g = specTotalExpectedExpenses g :=
    totalExpectedExpensesOf_eq g
  refine ⟨?_, ?_, ?_,
    by norm_num [getDashboardSummary, totalExpensesOf, totalExpectedExpensesOf]⟩
  · intro hpos
    simp [getDashboardSummary, hrw, hpos]
  · intro hzero
    simp [getDashboardSummary, hrw, hzero]
  · by_cases hpos : 0 < totalExpectedExpensesOf g
    · simp only [getDashboardSummary, if_pos hpos]
      exact min_le_right _ _
    · simp only [getDashboardSummary, if_neg hpos]
      norm_num

/-- Witness for C2 at a concrete goal with positive expected total. -/
theorem claim_C2_monthly_progress_witness :
    0 < specTotalExpectedExpenses (some ⟨"u", "2024-05", 0, [⟨"c", "Food", 100⟩]⟩) ∧
    (getDashboardSummary (some ⟨"u", "2024-05", 0, [⟨"c", "Food", 100⟩]⟩)
        [⟨"t", "u", "c", "Food", 250, "d", "2024-05-01", "2024-05"⟩]).monthlyProgress =
      min ((getDashboardSummary (some ⟨"u", "2024-05", 0, [⟨"c", "Food", 100⟩]⟩)
        [⟨"t", "u", "c", "Food", 250, "d", "2024-05-01", "2024-05"⟩]).totalExpenses /
          specTotalExpectedExpenses (some ⟨"u", "2024-05", 0, [⟨"c", "Food", 100⟩]⟩) * 100) 100 :=
  ⟨by norm_num [specTotalExpectedExpenses],
   (claim_C2_monthly_progress (some ⟨"u", "2024-05", 0, [⟨"c", "Food", 100⟩]⟩)
      [⟨"t", "u", "c", "Food", 250, "d", "2024-05-01", "2024-05"⟩]).1
     (by norm_num [specTotalExpectedExpenses])⟩

/-! ### Claim C5: whitespace-only derived names -/

/-- C5 (code behavior at the failing input): with `categoryName = " "`
(whitespace-only) and no `categoryRef`, the resolver does NOT return
not-found — the final guard `if (derivedName)` is a JavaScript truthiness
test, so the whitespace-only name passes it and a category named `" "` is
created and returned.  The spec requires not-found here. -/
theorem claim_C5_whitespace_name_creates :
    resolveCategoryId [] "u1" none (some " ") true "f1"
      = (some ("f1", " "), [⟨"f1", some "u1", " ", "#6B7280", "more-horizontal", false⟩]) := by
  decide

/-! ### Claim C10: category deletion scope -/

theorem mem_deleteCategory (store : List Category) (userId categoryId : String)
    (c : Category) :
    c ∈ (deleteCategory store userId categoryId).2 ↔
      c ∈ store ∧
        ¬(c.id = categoryId ∧ c.user_id = some userId ∧ c.is_default = false) := by
  simp [deleteCategory, List.mem_filter]
  tauto

/-- C10: `deleteCategory` removes at most the rows matching the supplied id
that are owned by the calling account and are not system defaults; every
default row and every row of another account survives, nothing outside the
store appears, and the call reports success regardless of whether any row
matched. -/
theorem claim_C10_delete_scoped (store : List Category) (userId categoryId : String) :
    (deleteCategory store userId categoryId).1 = true ∧
    (∀ c ∈ store, c ∉ (deleteCategory store userId categoryId).2 →
      c.id = categoryId ∧ c.user_id = some userId ∧ c.is_default = false) ∧
    (∀ c ∈ store, (c.is_default = true ∨ c.user_id ≠ some userId) →
      c ∈ (deleteCategory store userId categoryId).2) ∧
    (∀ c ∈ (deleteCategory store userId categoryId).2, c ∈ store) := by
  refine ⟨rfl, ?_, ?_, ?_⟩
  · intro c hc hnotin
    by_contra hne
    exact hnotin ((mem_deleteCategory store userId categoryId c).mpr ⟨hc, hne⟩)
  · intro c hc hd
    refine (mem_deleteCategory store userId categoryId c).mpr ⟨hc, ?_⟩
    rintro ⟨-, h2, h3⟩
    rcases hd with hd | hd
    · rw [hd] at h3; cases h3
    · exact hd h2
  · intro c hc
    exact ((mem_deleteCategory store userId categoryId c).mp hc).1

/-- Witness for C10 on a store holding a default row and another user's row
sharing the supplied id. -/
theorem claim_C10_delete_scoped_witness :
    (⟨"c1", none, "Def", "x", "y", true⟩ : Category)
        ∈ [(⟨"c1", none, "Def", "x", "y", true⟩ : Category),
           ⟨"c1", some "u2", "Other", "x", "y", false⟩] ∧
    (⟨"c1", none, "Def", "x", "y", true⟩ : Category)
        ∈ (deleteCategory [⟨"c1", none, "Def", "x", "y", true⟩,
            ⟨"c1", some "u2", "Other", "x", "y", false⟩] "u1" "c1").2 :=
  ⟨by decide,
   (claim_C10_delete_scoped [⟨"c1", none, "Def", "x", "y", true⟩,
       ⟨"c1", some "u2", "Other", "x", "y", false⟩] "u1" "c1").2.2.1
     ⟨"c1", none, "Def", "x", "y", true⟩ (by decide) (Or.inl rfl)⟩

/-! ### Claim C7: goal upsert replace semantics -/

/-- C7: under the store's `(user_id, month)` uniqueness invariant (at most
one matching row), creating a monthly goal leaves exactly one row for that
key, that row carries the new call's `income` and full `expenses` breakdown
(wholesale replacement, not a merge), and two successive creates for the
same `(account, month)` starting from an empty store leave exactly the one
row holding the second call's values. -/
theorem claim_C7_goal_upsert (store : List MonthlyGoalRow) (userId : String)
    (goalData : CreateMonthlyGoalRequest)
    (hinv : goalKeyCount store userId goalData.month ≤ 1) :
    goalKeyCount (createMonthlyGoal store userId goalData).2 userId goalData.month = 1 ∧
    (∀ r ∈ (createMonthlyGoal store userId goalData).2,
      r.user_id = userId → r.month = goalData.month →
        r.income = goalData.income ∧ r.expenses = goalData.expenses) ∧
    (∀ month income1 income2 expenses1 expenses2,
      (createMonthlyGoal (createMonthlyGoal [] userId
          ⟨month, income1, expenses1⟩).2 userId ⟨month, income2, expenses2⟩).2
        = [⟨userId, month, income2, expenses2⟩]) := by
  refine ⟨?_, ?_, ?_⟩
  · by_cases hany : store.any (goalKey userId goalData.month)
    · have hmap : (createMonthlyGoal store userId goalData).2
          = store.map (fun r =>
              if goalKey userId goalData.month r then
                { r with income := goalData.income, expenses := goalData.expenses }
              else r) := by
        simp only [createMonthlyGoal, hany, if_true]
      have hcount : goalKeyCount (createMonthlyGoal store userId goalData).2
          userId goalData.month = goalKeyCount store userId goalData.month := by
        rw [hmap]
        unfold goalKeyCount
        rw [List.countP_map]
        refine List.countP_congr ?_
        intro r _
        simp only [Function.comp_apply]
        by_cases hr : goalKey userId goalData.month r
        · rw [if_pos hr, hr]
          simp only [goalKey, Bool.and_eq_true, decide_eq_true_eq] at hr
          simp [goalKey, hr.1, hr.2]
        · rw [if_neg hr]
      have hpos : 0 < goalKeyCount store userId goalData.month := by
        unfold goalKeyCount
        rw [List.countP_pos_iff]
        simpa [List.any_eq_true] using hany
      rw [hcount]
      omega
    · have happ : (createMonthlyGoal store userId goalData).2 = store ++
          [⟨userId, goalData.month, goalData.income, goalData.expenses⟩] := by
        simp only [createMonthlyGoal, hany, if_false, Bool.false_eq_true]
      rw [happ]
      unfold goalKeyCount
      rw [List.countP_append]
      have hz : store.countP (goalKey userId goalData.month) = 0 := by
        rw [List.countP_eq_zero]
        intro r hr hpr
        exact absurd (List.any_eq_true.mpr ⟨r, hr, hpr⟩) hany
      rw [hz]
      simp [goalKey]
  · intro r hr hu hm
    by_cases hany : store.any (goalKey userId goalData.month)
    · simp only [createMonthlyGoal, hany, if_true] at hr
      rcases List.mem_map.mp hr with ⟨r0, _, heq⟩
      by_cases hr0 : goalKey userId goalData.month r0
      · rw [if_pos hr0] at heq
        subst heq
        exact ⟨rfl, rfl⟩
      · rw [if_neg hr0] at heq
        subst heq
        exact absurd (by simp [goalKey, hu, hm]) hr0
    · simp only [createMonthlyGoal, hany, if_false, Bool.false_eq_true,
        List.mem_append, List.mem_singleton] at hr
      rcases hr with hr | hr
      · exact absurd (List.any_eq_true.mpr ⟨r, hr, by simp [goalKey, hu, hm]⟩) hany
      · subst hr
        exact ⟨rfl, rfl⟩
  · intro month income1 income2 expenses1 expenses2
    simp [createMonthlyGoal, goalKey]

/-- Witness for C7 on a store already holding a goal for the key. -/
theorem claim_C7_goal_upsert_witness :
    goalKeyCount [⟨"u", "2024-05", 100, []⟩] "u" "2024-05" ≤ 1 ∧
    goalKeyCount (createMonthlyGoal [⟨"u", "2024-05", 100, []⟩] "u"
        ⟨"2024-05", 200, []⟩).2 "u" "2024-05" = 1 :=
  ⟨by decide,
   (claim_C7_goal_upsert [⟨"u", "2024-05", 100, []⟩] "u" ⟨"2024-05", 200, []⟩
      (by decide)).1⟩

/-! ### Claim C6: update atomicity under unresolvable categories -/

/-- C6: when a transaction update supplies a category reference (either
field present and non-empty) that category resolution cannot resolve, the
update returns an error and the transaction store is left completely
unchanged — no field of any stored transaction is modified. -/
theorem claim_C6_update_atomicity (catStore : List Category) (txStore : List Transaction)
    (userId transactionId : String) (updates : UpdateTransactionRequest) (freshId : String)
    (hcat : (strTruthy updates.category_id || strTruthy updates.category_name) = true)
    (hres : (resolveCategoryId catStore userId updates.category_id updates.category_name
        true freshId).1 = none) :
    (updateTransaction catStore txStore userId transactionId updates freshId).1 = none ∧
    (updateTransaction catStore txStore userId transactionId updates freshId).2.2 = txStore := by
  unfold updateTransaction
  cases hfil : txStore.filter
      (fun t => decide (t.id = transactionId) && decide (t.user_id = userId)) with
  | nil => exact ⟨rfl, rfl⟩
  | cons a l =>
    cases l with
    | nil =>
        rcases hrc : resolveCategoryId catStore userId updates.category_id
            updates.category_name true freshId with ⟨ropt, cs2⟩
        cases ropt with
        | some v =>
            rw [hrc] at hres
            exact Option.noConfusion hres
        | none =>
            dsimp only
            rw [hcat]
            exact ⟨rfl, rfl⟩
    | cons b l' => exact ⟨rfl, rfl⟩

/-- Witness for C6: an update naming an unknown (but well-formed) category
id on a one-transaction store fails and leaves the store unchanged. -/
theorem claim_C6_update_atomicity_witness :
    (strTruthy (some "123e4567-e89b-12d3-a456-426614174000") || strTruthy none) = true ∧
    (resolveCategoryId [] "u1" (some "123e4567-e89b-12d3-a456-426614174000") none
        true "f1").1 = none ∧
    (updateTransaction [] [⟨"t1", "u1", "c1", "Food", 5, "d", "2024-05-01", "2024-05"⟩]
        "u1" "t1" { category_id := some "123e4567-e89b-12d3-a456-426614174000" } "f1").2.2
      = [⟨"t1", "u1", "c1", "Food", 5, "d", "2024-05-01", "2024-05"⟩] :=
  ⟨by decide, by decide,
   (claim_C6_update_atomicity [] [⟨"t1", "u1", "c1", "Food", 5, "d", "2024-05-01", "2024-05"⟩]
      "u1" "t1" { category_id := some "123e4567-e89b-12d3-a456-426614174000" } "f1"
      (by decide) (by decide)).2⟩

/-! ### Claim C3: ownership boundary of category resolution -/

theorem uuidLookup_ownership (store : List Category) (userId : String)
    (categoryId : Option String) (c : Category)
    (h : uuidLookup store userId categoryId = some c) :
    c ∈ store ∧ (c.is_default = true ∨ c.user_id = some userId) := by
  unfold uuidLookup at h
  cases categoryId with
  | none => cases h
  | some cid =>
      dsimp only at h
      by_cases hu : isUuid cid = true
      · rw [if_pos hu] at h
        cases hfil : store.filter (fun x => decide (x.id = cid) && visibleTo userId x) with
        | nil => rw [hfil] at h; cases h
        | cons a l =>
            cases l with
            | nil =>
                rw [hfil] at h
                have ha : a = c := by
                  cases h; rfl
                subst ha
                have hmem : a ∈ store.filter (fun x => decide (x.id = cid) && visibleTo userId x) := by
                  rw [hfil]; exact List.mem_singleton_self a
                have hfc := List.mem_filter.mp hmem
                refine ⟨hfc.1, ?_⟩
                have hv := (Bool.and_eq_true _ _ |>.mp hfc.2).2
                unfold visibleTo at hv
                simpa using hv
            | cons b l' => rw [hfil] at h; cases h
      · rw [if_neg hu] at h; cases h

theorem nameLookup_ownership (store : List Category) (userId : String)
    (categoryName : Option String) (c : Category)
    (h : nameLookup store userId categoryName = some c) :
    c ∈ store ∧ (c.is_default = true ∨ c.user_id = some userId) := by
  unfold nameLookup at h
  cases categoryName with
  | none => cases h
  | some nm =>
      dsimp only at h
      by_cases ht : (jsTrim nm == "") = true
      · rw [if_pos ht] at h; cases h
      · rw [if_neg ht] at h
        have hmem := List.mem_of_find?_eq_some h
        have hp := List.find?_some h
        have hv := (Bool.and_eq_true _ _ |>.mp hp).2
        unfold visibleTo at hv
        refine ⟨hmem, ?_⟩
        simpa using hv

theorem createWithName_ownership (store : List Category) (userId freshId : String)
    (dn : Option String) (rid rname : String)
    (h : (createWithName store userId freshId dn).1 = some (rid, rname)) :
    ∃ c ∈ (createWithName store userId freshId dn).2,
      c.id = rid ∧ c.name = rname ∧ (c.is_default = true ∨ c.user_id = some userId) := by
  unfold createWithName at h ⊢
  cases dn with
  | none => cases h
  | some nm =>
      dsimp only at h ⊢
      by_cases he : (nm == "") = true
      · rw [if_pos he] at h; rw [if_pos he]; cases h
      · rw [if_neg he] at h; rw [if_neg he]
        unfold insertCategory at h ⊢
        by_cases hc : categoryConflict store
            ⟨freshId, some userId, nm, "#6B7280", "more-horizontal", false⟩ = true
        · rw [if_pos hc] at h; rw [if_pos hc]; cases h
        · rw [if_neg hc] at h; rw [if_neg hc]
          dsimp only at h ⊢
          have h1 : freshId = rid ∧ nm = rname := by
            cases h; exact ⟨rfl, rfl⟩
          refine ⟨⟨freshId, some userId, nm, "#6B7280", "more-horizontal", false⟩, ?_, ?_, ?_, ?_⟩
          · exact List.mem_append_right store (List.mem_singleton_self _)
          · exact h1.1
          · exact h1.2
          · exact Or.inr rfl

theorem resolveFallback_ownership (store : List Category) (userId : String)
    (categoryId categoryName : Option String) (createIfMissing : Bool) (freshId : String)
    (rid rname : String)
    (h : (resolveFallback store userId categoryId categoryName createIfMissing freshId).1
        = some (rid, rname)) :
    ∃ c ∈ (resolveFallback store userId categoryId categoryName createIfMissing freshId).2,
      c.id = rid ∧ c.name = rname ∧ (c.is_default = true ∨ c.user_id = some userId) := by
  unfold resolveFallback at h ⊢
  cases hnl : nameLookup store userId categoryName with
  | some c =>
      rw [hnl] at h
      dsimp only at h ⊢
      have hcp := nameLookup_ownership store userId categoryName c hnl
      have h1 : c.id = rid ∧ c.name = rname := by
        cases h; exact ⟨rfl, rfl⟩
      exact ⟨c, hcp.1, h1.1, h1.2, hcp.2⟩
  | none =>
      rw [hnl] at h
      dsimp only at h ⊢
      cases createIfMissing with
      | true =>
          rw [if_pos rfl] at h ⊢
          exact createWithName_ownership store userId freshId
            (derivedNameOf categoryId categoryName) rid rname h
      | false =>
          rw [if_neg (by simp)] at h
          cases h

/-- C3: whatever `resolveCategoryId` returns is a category of the resulting
store that is a system default or is owned by the calling account — a
category owned by a different account is never returned, even when its
identifier is supplied explicitly and exists in the store. -/
theorem claim_C3_ownership_boundary (store : List Category) (userId : String)
    (categoryId categoryName : Option String) (createIfMissing : Bool) (freshId : String)
    (rid rname : String)
    (h : (resolveCategoryId store userId categoryId categoryName createIfMissing freshId).1
        = some (rid, rname)) :
    ∃ c ∈ (resolveCategoryId store userId categoryId categoryName createIfMissing freshId).2,
      c.id = rid ∧ c.name = rname ∧ (c.is_default = true ∨ c.user_id = some userId) := by
  unfold resolveCategoryId at h ⊢
  cases hul : uuidLookup store userId categoryId with
  | some c =>
      rw [hul] at h
      dsimp only at h ⊢
      have hcp := uuidLookup_ownership store userId categoryId c hul
      have h1 : c.id = rid ∧ c.name = rname := by
        cases h; exact ⟨rfl, rfl⟩
      exact ⟨c, hcp.1, h1.1, h1.2, hcp.2⟩
  | none =>
      rw [hul] at h
      dsimp only at h ⊢
      exact resolveFallback_ownership store userId categoryId categoryName
        createIfMissing freshId rid rname h

/-- Witness for C3: resolving another account's existing identifier falls
through to creation, and the returned category is owned by the caller. -/
theorem claim_C3_ownership_boundary_witness :
    (resolveCategoryId [⟨"123e4567-e89b-12d3-a456-426614174000", some "u2", "Other",
        "#FF0000", "x", false⟩] "u1" (some "123e4567-e89b-12d3-a456-426614174000")
        (some "Groceries") true "f1").1 = some ("f1", "Groceries") ∧
    ∃ c ∈ (resolveCategoryId [⟨"123e4567-e89b-12d3-a456-426614174000", some "u2", "Other",
        "#FF0000", "x", false⟩] "u1" (some "123e4567-e89b-12d3-a456-426614174000")
        (some "Groceries") true "f1").2,
      c.id = "f1" ∧ c.name = "Groceries" ∧ (c.is_default = true ∨ c.user_id = some "u1") :=
  ⟨by decide,
   claim_C3_ownership_boundary [⟨"123e4567-e89b-12d3-a456-426614174000", some "u2", "Other",
       "#FF0000", "x", false⟩] "u1" (some "123e4567-e89b-12d3-a456-426614174000")
     (some "Groceries") true "f1" "f1" "Groceries" (by decide)⟩

/-! ### Claim C4: slug-derived creation

The claim as frozen fails on the code: the created category's name is the
title-cased `"Food Groceries"`, and the `categories` table carries
`UNIQUE(name, user_id)` (`database/schema.sql`), so when the owner already
has a category named `"Food Groceries"` — which matches neither the id nor
the name `"food-groceries"`, so the claim's hypothesis holds — the insert
fails and the resolver returns not-found instead of a created category
(the code's `if (!createErr && created)` branch).
-/

/-- C4 counterexample: an owner whose store holds only their own category
named `"Food Groceries"` has no category matching `"food-groceries"` by id
or name, yet `resolve(owner, "food-groceries", undefined, true)` returns
not-found (`none`) and creates nothing, contradicting the claim that a new
category is created and returned. -/
theorem claim_C4_counterexample :
    (∀ c ∈ ([⟨"c1", some "u1", "Food Groceries", "#FF0000", "x", false⟩] : List Category),
        c.id ≠ "food-groceries" ∧ c.name ≠ "food-groceries") ∧
    resolveCategoryId [⟨"c1", some "u1", "Food Groceries", "#FF0000", "x", false⟩]
        "u1" (some "food-groceries") none true "f1"
      = (none, [⟨"c1", some "u1", "Food Groceries", "#FF0000", "x", false⟩]) := by
  decide

/-- C4 as amended: with `categoryRef = "food-groceries"`, no `categoryName`
and `createIfMissing = true`, for an owner with no category matching
`"food-groceries"` by id or name, and — additionally — no category named
`"Food Groceries"` owned by that owner and a fresh id unused in the store
(so the insert violates no uniqueness constraint), the resolver creates a
user-owned, non-default category titled `"Food Groceries"` (hyphens
replaced by spaces, each word's first letter capitalized) and returns its
id and name. -/
theorem claim_C4_slug_creation (store : List Category) (userId freshId : String)
    (_hmatch : ∀ c ∈ store, visibleTo userId c = true →
      c.id ≠ "food-groceries" ∧ c.name ≠ "food-groceries")
    (hname : ∀ c ∈ store, ¬(c.user_id = some userId ∧ c.name = "Food Groceries"))
    (hfresh : ∀ c ∈ store, c.id ≠ freshId) :
    resolveCategoryId store userId (some "food-groceries") none true freshId
      = (some (freshId, "Food Groceries"),
         store ++ [⟨freshId, some userId, "Food Groceries", "#6B7280",
           "more-horizontal", false⟩]) := by
  have huuid : isUuid "food-groceries" = false := by decide
  have hderive : derivedNameOf (some "food-groceries") none = some "Food Groceries" := by
    decide
  have hconf : categoryConflict store
      ⟨freshId, some userId, "Food Groceries", "#6B7280", "more-horizontal", false⟩
        = false := by
    unfold categoryConflict
    rw [List.any_eq_false]
    intro c hc
    simp only [Bool.or_eq_true, Bool.and_eq_true, decide_eq_true_eq, not_or, not_and,
      Option.isSome_iff_exists]
    constructor
    · exact hfresh c hc
    · intro hn hu
      exact hname c hc ⟨hu, hn.1⟩
  unfold resolveCategoryId uuidLookup
  dsimp only
  rw [huuid, if_neg (by simp)]
  dsimp only
  unfold resolveFallback nameLookup
  dsimp only
  rw [if_pos rfl, hderive]
  unfold createWithName
  dsimp only
  rw [if_neg (by decide)]
  unfold insertCategory
  rw [hconf, if_neg (by decide)]

/-- Witness for the amended C4 at the empty store. -/
theorem claim_C4_slug_creation_witness :
    (∀ c ∈ ([] : List Category), visibleTo "u1" c = true →
      c.id ≠ "food-groceries" ∧ c.name ≠ "food-groceries") ∧
    (∀ c ∈ ([] : List Category), ¬(c.user_id = some "u1" ∧ c.name = "Food Groceries")) ∧
    (∀ c ∈ ([] : List Category), c.id ≠ "f1") ∧
    resolveCategoryId [] "u1" (some "food-groceries") none true "f1"
      = (some ("f1", "Food Groceries"),
         [⟨"f1", some "u1", "Food Groceries", "#6B7280", "more-horizontal", false⟩]) :=
  ⟨by simp, by simp, by simp,
   claim_C4_slug_creation [] "u1" "f1" (by simp) (by simp) (by simp)⟩

/-! ### Grouping lemmas: `categoryTotals` sums per category name,
with keys in first-occurrence order -/

theorem keys_recordAdd (l : List (String × ℚ)) (m : String) (a : ℚ) :
    (recordAdd l m a).map Prod.fst
      = if m ∈ l.map Prod.fst then l.map Prod.fst else l.map Prod.fst ++ [m] := by
  induction l with
  | nil => simp [recordAdd]
  | cons p rest ih =>
      by_cases hpm : p.1 = m
      · rw [recordAdd, if_pos hpm]
        simp [hpm]
      · rw [recordAdd, if_neg hpm]
        have hne : ¬ m = p.1 := fun h => hpm h.symm
        by_cases hm : m ∈ rest.map Prod.fst <;>
          simp [hm, ih, hne, List.mem_cons]

theorem keys_foldl (ts : List Transaction) (acc : List (String × ℚ)) :
    ((ts.foldl (fun a t => recordAdd a t.category_name t.amount) acc).map Prod.fst)
      = acc.map Prod.fst
        ++ (firstOccurs (ts.map Transaction.category_name)).filter
            (fun n => decide (n ∉ acc.map Prod.fst)) := by
  induction ts generalizing acc with
  | nil => simp [firstOccurs]
  | cons t ts ih =>
      rw [List.map_cons, List.foldl_cons, ih, keys_recordAdd, firstOccurs]
      by_cases hmem : t.category_name ∈ acc.map Prod.fst
      · rw [if_pos hmem, List.filter_cons]
        rw [if_neg (by simp [hmem])]
        congr 1
        rw [List.filter_filter]
        refine List.filter_congr ?_
        intro x _
        by_cases hxK : x ∈ acc.map Prod.fst
        · simp [hxK]
        · have hxn : x ≠ t.category_name := fun h => hxK (h ▸ hmem)
          simp [hxK, hxn]
      · rw [if_neg hmem, List.filter_cons]
        rw [if_pos (by simp [hmem])]
        rw [List.append_assoc, List.singleton_append, List.filter_filter]
        congr 2
        refine (List.filter_congr ?_).symm
        intro x _
        by_cases hxn : x = t.category_name
        · subst hxn
          simp [hmem]
        · by_cases hxK : x ∈ acc.map Prod.fst <;>
            simp [hxK, hxn, List.mem_append]

/-- C1's key-order property: the keys of `categoryTotals` are exactly the
distinct category names in first-occurrence order. -/
theorem categoryTotals_keys (ts : List Transaction) :
    (categoryTotals ts).map Prod.fst
      = firstOccurs (ts.map Transaction.category_name) := by
  have h := keys_foldl ts []
  simpa [categoryTotals] using h

theorem insertByAmount_filter_amount (x : TopCategory) (l : List TopCategory) (c : ℚ) :
    (insertByAmount x l).filter (fun e => decide (e.amount = c))
      = if x.amount = c then x :: l.filter (fun e => decide (e.amount = c))
        else l.filter (fun e => decide (e.amount = c)) := by
  induction l with
  | nil => by_cases h : x.amount = c <;> simp [insertByAmount, h]
  | cons y ys ih =>
      rw [insertByAmount]
      by_cases hxy : y.amount ≤ x.amount
      · rw [if_pos hxy]
        by_cases hx : x.amount = c <;> simp [List.filter_cons, hx]
      · rw [if_neg hxy]
        rw [List.filter_cons, List.filter_cons, ih]
        by_cases hyc : y.amount = c
        · by_cases hx : x.amount = c
          · exact absurd (le_of_eq (hyc.trans hx.symm)) hxy
          · simp [hyc, hx]
        · by_cases hx : x.amount = c <;> simp [hyc, hx]

/-- Stability of the sort under an amount class: the entries holding a given
amount appear in the sorted output exactly in their input order. -/
theorem sortByAmountDesc_filter_amount (l : List TopCategory) (c : ℚ) :
    (sortByAmountDesc l).filter (fun e => decide (e.amount = c))
      = l.filter (fun e => decide (e.amount = c)) := by
  induction l with
  | nil => rfl
  | cons x xs ih =>
      rw [sortByAmountDesc, insertByAmount_filter_amount, List.filter_cons]
      by_cases hx : x.amount = c <;> simp [hx, ih]

/-! ### Order-of-first-occurrence lemmas -/

theorem pair_sublist_of_getElem? {α : Type _} (l : List α) (i j : Nat) (a b : α)
    (hij : i < j) (ha : l[i]? = some a) (hb : l[j]? = some b) : [a, b].Sublist l := by
  induction l generalizing i j with
  | nil => simp at ha
  | cons x xs ih =>
      cases i with
      | zero =>
          rw [List.getElem?_cons_zero] at ha
          have hax : x = a := by cases ha; rfl
          subst hax
          cases j with
          | zero => omega
          | succ j' =>
              rw [List.getElem?_cons_succ] at hb
              have hbmem : b ∈ xs := by
                rcases List.getElem?_eq_some_iff.mp hb with ⟨hlt, hget⟩
                exact hget ▸ List.getElem_mem hlt
              exact List.Sublist.cons₂ x (List.singleton_sublist.mpr hbmem)
      | succ i' =>
          cases j with
          | zero => omega
          | succ j' =>
              rw [List.getElem?_cons_succ] at ha hb
              exact List.Sublist.cons x (ih i' j' (by omega) ha hb)

theorem mem_of_mem_firstOccurs (ns : List String) (x : String)
    (h : x ∈ firstOccurs ns) : x ∈ ns := by
  induction ns with
  | nil => simp [firstOccurs] at h
  | cons n ns ih =>
      rw [firstOccurs] at h
      rcases List.mem_cons.mp h with rfl | h
      · exact List.mem_cons_self x ns
      · exact List.mem_cons_of_mem n (ih ((List.mem_filter.mp h).1))

/-- Two names appearing in this order in the first-occurrence list have
strictly increasing first-occurrence indices in the underlying list. -/
theorem firstIdx_lt_of_sublist_firstOccurs (ns : List String) (a b : String)
    (h : [a, b].Sublist (firstOccurs ns)) : firstIdx a ns < firstIdx b ns := by
  induction ns with
  | nil =>
      rw [firstOccurs] at h
      have := List.sublist_nil.mp h
      cases this
  | cons n ns ih =>
      rw [firstOccurs] at h
      cases h with
      | cons _ h' =>
          have hab : [a, b].Sublist (firstOccurs ns) :=
            h'.trans (List.filter_sublist _)
          have hamem : a ∈ (firstOccurs ns).filter (fun m => decide (m ≠ n)) :=
            h'.subset (List.mem_cons_self a [b])
          have hbmem : b ∈ (firstOccurs ns).filter (fun m => decide (m ≠ n)) :=
            h'.subset (List.mem_cons_of_mem a (List.mem_cons_self b []))
          have han : a ≠ n := by
            have := (List.mem_filter.mp hamem).2
            simpa using this
          have hbn : b ≠ n := by
            have := (List.mem_filter.mp hbmem).2
            simpa using this
          rw [firstIdx, firstIdx, if_neg (fun hh : n = a => han hh.symm),
            if_neg (fun hh : n = b => hbn hh.symm)]
          exact Nat.succ_lt_succ (ih hab)
      | cons₂ e h' =>
          have hbmem : b ∈ (firstOccurs ns).filter (fun m => decide (m ≠ a)) :=
            h'.subset (List.mem_cons_self b [])
          have hbn : b ≠ a := by
            have := (List.mem_filter.mp hbmem).2
            simpa using this
          rw [firstIdx, firstIdx, if_pos rfl, if_neg (fun hh : a = b => hbn hh.symm)]
          exact Nat.succ_pos _


/-! ### `Object.entries` enumeration lemmas -/

theorem keyIdxInsert_perm (p : String × ℚ) (l : List (String × ℚ)) :
    (keyIdxInsert p l).Perm (p :: l) := by
  induction l with
  | nil => exact List.Perm.refl _
  | cons q qs ih =>
      rw [keyIdxInsert]
      by_cases h : strToNat p.1 ≤ strToNat q.1
      · rw [if_pos h]
      · rw [if_neg h]
        exact (ih.cons q).trans (List.Perm.swap p q qs)

theorem sortByKeyIdx_perm (l : List (String × ℚ)) : (sortByKeyIdx l).Perm l := by
  induction l with
  | nil => exact List.Perm.refl _
  | cons p ps ih =>
      rw [sortByKeyIdx]
      exact (keyIdxInsert_perm p (sortByKeyIdx ps)).trans (ih.cons p)

theorem objectEntries_eq_self (l : List (String × ℚ))
    (h : ∀ p ∈ l, isArrayIndex p.1 = false) : objectEntries l = l := by
  have h1 : l.filter (fun p => isArrayIndex p.1) = [] := by
    rw [List.filter_eq_nil_iff]
    intro p hp
    simp [h p hp]
  have h2 : l.filter (fun p => !isArrayIndex p.1) = l := by
    rw [List.filter_eq_self]
    intro p hp
    simp [h p hp]
  rw [objectEntries, h1, h2]
  rfl

theorem pair_sublist_append_right {α : Type _} (u v : List α) (a b : α)
    (h : [a, b].Sublist (u ++ v)) (ha : a ∉ u) : [a, b].Sublist v := by
  induction u with
  | nil => simpa using h
  | cons x xs ih =>
      rw [List.cons_append] at h
      cases h with
      | cons _ h' => exact ih h' (fun hm => ha (List.mem_cons_of_mem x hm))
      | cons₂ e h' => exact absurd (List.mem_cons_self _ _) ha

/-- A pair of non-array-index keys appearing in order in the
`Object.entries` enumeration appears in that order among the Record's keys
in insertion order (it suffices that the earlier key is not an array
index: the later one then cannot be either). -/
theorem pair_sublist_objectEntries (l : List (String × ℚ)) (a b : String)
    (hsub : [a, b].Sublist ((objectEntries l).map Prod.fst))
    (ha : isArrayIndex a = false) :
    [a, b].Sublist (l.map Prod.fst) := by
  rw [objectEntries, List.map_append] at hsub
  have hnotin : a ∉ (sortByKeyIdx (l.filter (fun p => isArrayIndex p.1))).map Prod.fst := by
    intro hmem
    rcases List.mem_map.mp hmem with ⟨q, hq, rfl⟩
    have hqm := (sortByKeyIdx_perm _).subset hq
    have hq2 := (List.mem_filter.mp hqm).2
    rw [ha] at hq2
    cases hq2
  have h2 := pair_sublist_append_right _ _ _ _ hsub hnotin
  exact h2.trans ((List.filter_sublist l).map Prod.fst)

/-! ### Claim C1: grouping and top-5 selection of `topCategories` -/

/-- C9 counterexample: transactions naming categories `"2"` then `"1"` with
equal amounts yield `topCategories` listing `"1"` before `"2"` — the
reverse of first-occurrence order, because the array-index keys `"1"`,
`"2"` are enumerated in ascending numeric order. -/
theorem claim_C9_counterexample :
    (topCategoriesOf
        [⟨"t1", "u", "c", "2", 5, "d", "2024-05-01", "2024-05"⟩,
         ⟨"t2", "u", "c", "1", 5, "d", "2024-05-01", "2024-05"⟩]).map
        TopCategory.category_name = ["1", "2"] ∧
    firstIdx "2"
        (([⟨"t1", "u", "c", "2", 5, "d", "2024-05-01", "2024-05"⟩,
           ⟨"t2", "u", "c", "1", 5, "d", "2024-05-01", "2024-05"⟩] :
             List Transaction).map Transaction.category_name)
      < firstIdx "1"
        (([⟨"t1", "u", "c", "2", 5, "d", "2024-05-01", "2024-05"⟩,
           ⟨"t2", "u", "c", "1", 5, "d", "2024-05-01", "2024-05"⟩] :
             List Transaction).map Transaction.category_name) := by
  constructor
  · have htot : categoryTotals
        [⟨"t1", "u", "c", "2", 5, "d", "2024-05-01", "2024-05"⟩,
         ⟨"t2", "u", "c", "1", 5, "d", "2024-05-01", "2024-05"⟩]
        = [("2", 5), ("1", 5)] := by
      decide
    have hobj : objectEntries [("2", (5 : ℚ)), ("1", 5)] = [("1", 5), ("2", 5)] := by
      decide
    rw [topCategoriesOf, htot, hobj]
    norm_num [mkTopEntry, totalExpensesOf, sortByAmountDesc, insertByAmount]
  · decide

/-- C9 as amended: the dashboard aggregation is a pure function (identical
inputs give identical `topCategories`); and when two reported entries carry
equal summed amounts and the earlier-listed entry's category name is not an
array-index string (in particular whenever neither tied name is one), the
earlier-listed entry belongs to the category name whose first occurrence in
the transaction sequence is earlier.  For array-index-shaped names the
`Object.entries` enumeration — ascending numeric, ahead of the other keys —
decides instead. -/
theorem claim_C9_deterministic_tie_order (g : Option MonthlyGoalRow) (ts : List Transaction)
    (i j : Nat) (e1 e2 : TopCategory) (hij : i < j)
    (hn1 : isArrayIndex e1.category_name = false)
    (h1 : (getDashboardSummary g ts).topCategories[i]? = some e1)
    (h2 : (getDashboardSummary g ts).topCategories[j]? = some e2)
    (heq : e1.amount = e2.amount) :
    (∀ g2 ts2, g2 = g → ts2 = ts →
      (getDashboardSummary g2 ts2).topCategories
        = (getDashboardSummary g ts).topCategories) ∧
    firstIdx e1.category_name (ts.map Transaction.category_name)
      < firstIdx e2.category_name (ts.map Transaction.category_name) := by
  refine ⟨fun g2 ts2 hg hts => by rw [hg, hts], ?_⟩
  have htc : (getDashboardSummary g ts).topCategories = topCategoriesOf ts := rfl
  rw [htc] at h1 h2
  have hsub : [e1, e2].Sublist (topCategoriesOf ts) :=
    pair_sublist_of_getElem? _ i j e1 e2 hij h1 h2
  have hpair : [e1, e2].filter (fun e => decide (e.amount = e1.amount)) = [e1, e2] := by
    simp [List.filter_cons, heq.symm]
  have hfsub : [e1, e2].Sublist
      ((topCategoriesOf ts).filter (fun e => decide (e.amount = e1.amount))) := by
    have h := hsub.filter (fun e => decide (e.amount = e1.amount))
    rwa [hpair] at h
  have htake : (topCategoriesOf ts).Sublist
      (sortByAmountDesc ((objectEntries (categoryTotals ts)).map
        (mkTopEntry (totalExpensesOf ts)))) :=
    List.take_sublist 5 _
  have h3 : [e1, e2].Sublist
      ((sortByAmountDesc ((objectEntries (categoryTotals ts)).map
        (mkTopEntry (totalExpensesOf ts)))).filter
          (fun e => decide (e.amount = e1.amount))) :=
    hfsub.trans (htake.filter _)
  rw [sortByAmountDesc_filter_amount] at h3
  have h4 : [e1, e2].Sublist
      ((objectEntries (categoryTotals ts)).map (mkTopEntry (totalExpensesOf ts))) :=
    h3.trans (List.filter_sublist _)
  have h5 : [e1.category_name, e2.category_name].Sublist
      (((objectEntries (categoryTotals ts)).map (mkTopEntry (totalExpensesOf ts))).map
        TopCategory.category_name) := by
    have h := h4.map TopCategory.category_name
    simpa using h
  have h6 : (((objectEntries (categoryTotals ts)).map (mkTopEntry (totalExpensesOf ts))).map
      TopCategory.category_name) = (objectEntries (categoryTotals ts)).map Prod.fst := by
    rw [List.map_map]
    have hc : (TopCategory.category_name ∘ mkTopEntry (totalExpensesOf ts)) = Prod.fst :=
      funext fun p => rfl
    rw [hc]
  rw [h6] at h5
  have h7 := pair_sublist_objectEntries (categoryTotals ts) _ _ h5 hn1
  rw [categoryTotals_keys] at h7
  exact firstIdx_lt_of_sublist_firstOccurs _ _ _ h7

/-- Witness for the amended C9: amounts `A:5, B:7, C:5` put the tied,
non-array-index-named groups `A` and `C` in first-occurrence order. -/
theorem claim_C9_deterministic_tie_order_witness :
    isArrayIndex "A" = false ∧
    (getDashboardSummary none
        [⟨"t1", "u", "c", "A", 5, "d", "2024-05-01", "2024-05"⟩,
         ⟨"t2", "u", "c", "B", 7, "d", "2024-05-01", "2024-05"⟩,
         ⟨"t3", "u", "c", "C", 5, "d", "2024-05-01", "2024-05"⟩]).topCategories[1]?
      = some ⟨"A", 5, 500/17⟩ ∧
    (getDashboardSummary none
        [⟨"t1", "u", "c", "A", 5, "d", "2024-05-01", "2024-05"⟩,
         ⟨"t2", "u", "c", "B", 7, "d", "2024-05-01", "2024-05"⟩,
         ⟨"t3", "u", "c", "C", 5, "d", "2024-05-01", "2024-05"⟩]).topCategories[2]?
      = some ⟨"C", 5, 500/17⟩ ∧
    firstIdx "A" (([⟨"t1", "u", "c", "A", 5, "d", "2024-05-01", "2024-05"⟩,
         ⟨"t2", "u", "c", "B", 7, "d", "2024-05-01", "2024-05"⟩,
         ⟨"t3", "u", "c", "C", 5, "d", "2024-05-01", "2024-05"⟩] :
           List Transaction).map Transaction.category_name)
      < firstIdx "C" (([⟨"t1", "u", "c", "A", 5, "d", "2024-05-01", "2024-05"⟩,
         ⟨"t2", "u", "c", "B", 7, "d", "2024-05-01", "2024-05"⟩,
         ⟨"t3", "u", "c", "C", 5, "d", "2024-05-01", "2024-05"⟩] :
           List Transaction).map Transaction.category_name) := by
  have htot : categoryTotals
      [⟨"t1", "u", "c", "A", 5, "d", "2024-05-01", "2024-05"⟩,
       ⟨"t2", "u", "c", "B", 7, "d", "2024-05-01", "2024-05"⟩,
       ⟨"t3", "u", "c", "C", 5, "d", "2024-05-01", "2024-05"⟩]
      = [("A", 5), ("B", 7), ("C", 5)] := by
    decide
  have hobj : objectEntries [("A", (5 : ℚ)), ("B", 7), ("C", 5)]
      = [("A", 5), ("B", 7), ("C", 5)] :=
    objectEntries_eq_self _ (by decide)
  have h1 : (getDashboardSummary none
      [⟨"t1", "u", "c", "A", 5, "d", "2024-05-01", "2024-05"⟩,
       ⟨"t2", "u", "c", "B", 7, "d", "2024-05-01", "2024-05"⟩,
       ⟨"t3", "u", "c", "C", 5, "d", "2024-05-01", "2024-05"⟩]).topCategories[1]?
      = some ⟨"A", 5, 500/17⟩ := by
    show (topCategoriesOf _)[1]? = _
    rw [topCategoriesOf, htot, hobj]
    norm_num [mkTopEntry, totalExpensesOf, sortByAmountDesc, insertByAmount]
  have h2 : (getDashboardSummary none
      [⟨"t1", "u", "c", "A", 5, "d", "2024-05-01", "2024-05"⟩,
       ⟨"t2", "u", "c", "B", 7, "d", "2024-05-01", "2024-05"⟩,
       ⟨"t3", "u", "c", "C", 5, "d", "2024-05-01", "2024-05"⟩]).topCategories[2]?
      = some ⟨"C", 5, 500/17⟩ := by
    show (topCategoriesOf _)[2]? = _
    rw [topCategoriesOf, htot, hobj]
    norm_num [mkTopEntry, totalExpensesOf, sortByAmountDesc, insertByAmount]
  exact ⟨by decide, h1, h2,
    (claim_C9_deterministic_tie_order none
      [⟨"t1", "u", "c", "A", 5, "d", "2024-05-01", "2024-05"⟩,
       ⟨"t2", "u", "c", "B", 7, "d", "2024-05-01", "2024-05"⟩,
       ⟨"t3", "u", "c", "C", 5, "d", "2024-05-01", "2024-05"⟩]
      1 2 ⟨"A", 5, 500/17⟩ ⟨"C", 5, 500/17⟩ (by omega) (by decide) h1 h2 rfl).2⟩

end BudgeTRAX
